import Mathlib

/-!
Verification of the invoice anomaly-detection pipeline.

Shallow embedding of the core pipeline:
* `InvoicesExtractor` (the Aggregator) — `src/app/agents/invoices_extractor.py`
* `AnomalyDetector` (the Classifier) — `src/app/agents/anomaly_detector.py`
* `FinancialAnalysisAgent` (the Analysis Loop) — `src/app/agents/financial_analysis_agent.py`
* `BelvoService` auth-token generation — `src/services/belvo_service.py`

Modelling conventions:
* Calendar dates are modelled as natural numbers (`Date := ℕ`), an order-preserving
  encoding of `datetime.date` (e.g. `20240201` for 2024-02-01); `pandas` date
  comparison is chronological, which the `ℕ` order mirrors.
* Monetary amounts (`float` in the source) are modelled as `ℚ`.
* The CSV snapshot read by `pd.read_csv` is passed explicitly as a
  `List InvoiceRecord` (only the columns the source touches are modelled).
* External reasoning capabilities (`ChatOpenAI.invoke`) are abstracted as
  function parameters; fallible calls return `Except`.
-/

namespace Belvo

abbrev Date := Nat

/-- Modelled from the spec: the file `app/agents/models/invoice_type_input.py` is
imported by `financial_analysis_agent.py`, `streamlit_app.py` and both test files but
is absent from `src/`; per the spec the category filter is a fixed closed enumeration
whose external labels are the `type` column's values `INFLOW` / `OUTFLOW`
(used as `InvoiceType.INFLOW.value` etc. by the dashboard and tests). -/
inductive InvoiceType where
  | INFLOW
  | OUTFLOW
deriving DecidableEq

/-- The `.value` attribute of the Python enum member. -/
def InvoiceType.value : InvoiceType → String
  | .INFLOW => "INFLOW"
  | .OUTFLOW => "OUTFLOW"

/-- One row of `data/invoices.csv`, restricted to the columns the source reads:
`type` (INFLOW/OUTFLOW), `invoice_date`, `invoice_type` (Egreso/Ingreso/…),
`total_amount`. -/
structure InvoiceRecord where
  ty : String
  invoice_date : Date
  invoice_type : String
  total_amount : ℚ
deriving DecidableEq

/-- A row of the grouped output of `InvoicesExtractor.extract` (after the
`rename` to columns `date`, `invoice_type`, `total_amount`). -/
structure DailyAggregate where
  date : Date
  invoice_type : String
  total_amount : ℚ
deriving DecidableEq

/-- `InvoicesExtractor._filter_data`: keep rows with
`from_date <= invoice_date <= to_date` and `type == invoice_type.value`. -/
def filterData (rows : List InvoiceRecord) (from_date to_date : Date)
    (it : InvoiceType) : List InvoiceRecord :=
  rows.filter fun r =>
    decide (from_date ≤ r.invoice_date) && decide (r.invoice_date ≤ to_date)
      && (r.ty == it.value)

/-- Lexicographic byte comparison of character lists (the order `pandas` uses for
string group keys, restated structurally so it is kernel-computable). -/
def charListLE : List Char → List Char → Bool
  | [], _ => true
  | _ :: _, [] => false
  | a :: as, b :: bs =>
    if a.toNat < b.toNat then true
    else if b.toNat < a.toNat then false
    else charListLE as bs

/-- Group keys of the `groupby(['invoice_date', 'invoice_type'])`: ordered first by
date, then by the `invoice_type` label (pandas sorts group keys ascending by default). -/
def keyLE (a b : Date × String) : Prop :=
  a.1 < b.1 ∨ (a.1 = b.1 ∧ charListLE a.2.data b.2.data = true)

instance : DecidableRel keyLE := fun a b => by
  unfold keyLE; infer_instance

/-- Sum of `total_amount` over the rows of one `(invoice_date, invoice_type)` group. -/
def keySum (rows : List InvoiceRecord) (k : Date × String) : ℚ :=
  ((rows.filter fun r => (r.invoice_date == k.1) && (r.invoice_type == k.2)).map
    (fun r => r.total_amount)).sum

/-- The `groupby(['invoice_date', 'invoice_type'], as_index=False)['total_amount'].sum()`
step followed by the column rename: one row per distinct `(invoice_date, invoice_type)`
key, keys sorted ascending, `total_amount` summed per key. -/
def aggregateRows (rows : List InvoiceRecord) : List DailyAggregate :=
  (List.insertionSort keyLE
      ((rows.map fun r => (r.invoice_date, r.invoice_type)).dedup)).map
    fun k => ⟨k.1, k.2, keySum rows k⟩

/-- `InvoicesExtractor.extract`: filter by date range and type, then group and sum. -/
def extract (rows : List InvoiceRecord) (from_date to_date : Date)
    (it : InvoiceType) : List DailyAggregate :=
  aggregateRows (filterData rows from_date to_date it)

/-- `InvoicesExtractor.get_invoices`: filter the raw rows to the single day and
type — no grouping, no summation, no rename. -/
def get_invoices (rows : List InvoiceRecord) (d : Date) (it : InvoiceType) :
    List InvoiceRecord :=
  filterData rows d d it

/-- Error raised by the spec's `dateRange` operation on a category with no records. -/
inductive AggError where
  | NoData
deriving DecidableEq

/-- The dates of all records of one category (type). -/
def datesOf (rows : List InvoiceRecord) (it : InvoiceType) : List Date :=
  (rows.filter fun r => r.ty == it.value).map fun r => r.invoice_date

/-- Modelled from the spec: `InvoicesExtractor.get_date_range` is called by
`streamlit_app.py` and asserted on by `tests/test_invoices_extractor.py`, but the
method is absent from `src/app/agents/invoices_extractor.py`. The spec:
`dateRange(category) -> (minDate, maxDate)` over all records of that category,
failing with `NoData` if the category has zero records. -/
def get_date_range (rows : List InvoiceRecord) (it : InvoiceType) :
    Except AggError (Date × Date) :=
  match datesOf rows it with
  | [] => .error .NoData
  | d :: ds => .ok (ds.foldl Nat.min d, ds.foldl Nat.max d)

/-! ### Anomaly Classifier (`src/app/agents/anomaly_detector.py`) -/

/-- `app/agents/models/detection_output.py` `Anomaly` (with `use_enum_values`,
so `invoice_type` carries the enum's string label). -/
structure Anomaly where
  date : Date
  total_amount : ℚ
  invoice_type : String
  reason : String
deriving DecidableEq

/-- `app/agents/models/detection_output.py` `DetectionOutput`. -/
structure DetectionOutput where
  anomalies : List Anomaly
deriving DecidableEq

/-- Rendering of one aggregate row inside `data.to_markdown()`. -/
def rowMarkdown (a : DailyAggregate) : String :=
  toString a.date ++ " | " ++ toString a.total_amount ++ " | " ++ a.invoice_type

/-- `data.to_markdown()` over the aggregate series. -/
def toMarkdown (series : List DailyAggregate) : String :=
  String.intercalate "\n" (series.map rowMarkdown)

/-- `AnomalyDetector.PROMPT.format(data=...)`: the fixed instruction text with the
markdown-rendered series substituted for the placeholder. -/
def promptFor (series : List DailyAggregate) : String :=
  "\n    Detect anomalies in the total amount by day.\n\n    Anomaly definition: The total amount increase significantly in comparison to the previous period with data.\n\n    The input contains:\n    - Date\n    - Total amount\n    - Invoice type (e.g. \"Egreso\", \"Ingreso\", \"Nómina\", \"Pago\", \"Traslado\")\n\n\n    Data:\n    "
    ++ toMarkdown series ++ "\n    "

/-- `AnomalyDetector.detect`: format the prompt and call `self.model.invoke` on it —
unconditionally, with no validation of the response and no empty-input short-circuit.
The result is the capability's structured output paired with the list of prompts the
call sent to the capability (the body performs exactly one `invoke`, on every path). -/
def detect (invoke : String → DetectionOutput) (series : List DailyAggregate) :
    DetectionOutput × List String :=
  (invoke (promptFor series), [promptFor series])

/-! ### Tool-Augmented Analysis Loop (`src/app/agents/financial_analysis_agent.py`) -/

/-- Message role in the LangGraph transcript. -/
inductive Role where
  | human
  | ai
  | tool
deriving DecidableEq

/-- A structured tool-call request emitted by the reasoner: the arguments of the
single registered tool `extract_invoices(date, invoice_type)`. -/
structure ToolCall where
  date : String
  invoice_type : InvoiceType
deriving DecidableEq

/-- One transcript message: role, content, and (for `ai` messages) the list of
tool-call requests. `tool_calls = []` models Python falsiness of both `[]` and `None`. -/
structure Message where
  role : Role
  content : String
  tool_calls : List ToolCall
deriving DecidableEq

/-- Rendering of `df.to_json(orient="records", date_format="iso")`. -/
def dfToJson (rows : List InvoiceRecord) : String :=
  "[" ++ String.intercalate ","
    (rows.map fun r =>
      "\x7b\"type\":\"" ++ r.ty ++ "\",\"invoice_date\":" ++ toString r.invoice_date
        ++ ",\"invoice_type\":\"" ++ r.invoice_type ++ "\",\"total_amount\":"
        ++ toString r.total_amount ++ "\x7d") ++ "]"

/-- The underlying data fetch of the tool (`InvoicesExtractor().get_invoices` plus the
CSV read): fallible, failing with the exception's message string. -/
abbrev Fetch := String → InvoiceType → Except String (List InvoiceRecord)

/-- `FinancialAnalysisAgent.extract_invoices` (the `@tool`): try the fetch and render
it as JSON; on any exception `e` return the string `"Error extracting invoices: " + str(e)`
as the tool result instead of propagating the exception. -/
def extract_invoices (fetch : Fetch) (date : String) (it : InvoiceType) : String :=
  match fetch date it with
  | .ok df => dfToJson df
  | .error e => "Error extracting invoices: " ++ e

/-- Result of `should_continue`: the conditional edge goes to the `tools` node or to
`END`. -/
inductive NextNode where
  | tools
  | endNode
deriving DecidableEq

/-- `FinancialAnalysisAgent.should_continue`: route on the last message —
`"tools"` when `last_message.tool_calls` is truthy, `END` otherwise.
(The source indexes `messages[-1]`; in every reachable state the transcript is
non-empty, and the `none` branch is an unreachable default.) -/
def should_continue (messages : List Message) : NextNode :=
  match messages.getLast? with
  | some m => if m.tool_calls = [] then .endNode else .tools
  | none => .endNode

/-- The `tools` node (`ToolNode`): execute each requested tool call of the last
message in order, appending each result to the transcript as a `tool` message. -/
def runToolTurn (fetch : Fetch) (msgs : List Message) : List Message :=
  match msgs.getLast? with
  | some m =>
    msgs ++ m.tool_calls.map fun tc =>
      ⟨Role.tool, extract_invoices fetch tc.date tc.invoice_type, []⟩
  | none => msgs

/-- The graph's two executable nodes (`END` is not a node; it terminates the run). -/
inductive Node where
  | chatbot
  | tools
deriving DecidableEq

/-- Failure of the LangGraph runtime when the compiled graph exceeds its recursion
limit (`GraphRecursionError`); the graph built by `_build_graph` sets no limit of its
own, so the runtime default applies. -/
inductive RunError where
  | recursionLimit
deriving DecidableEq

/-- Execution of the compiled graph from `_build_graph`, fuelled by the runtime's
recursion limit: `chatbot` appends the reasoner's message and follows
`should_continue`'s conditional edge (`tools` or `END`); `tools` runs the tool turn
and follows the fixed edge back to `chatbot`. Exhausting the fuel models
`GraphRecursionError`. The reasoner (`self.model.invoke` on the transcript) is the
function parameter `reasoner`. -/
def runFrom (reasoner : List Message → Message) (fetch : Fetch) :
    Nat → Node → List Message → Except RunError (List Message)
  | 0, _, _ => .error .recursionLimit
  | n + 1, .chatbot, msgs =>
    let m := reasoner msgs
    match should_continue (msgs ++ [m]) with
    | .tools => runFrom reasoner fetch n .tools (msgs ++ [m])
    | .endNode => .ok (msgs ++ [m])
  | n + 1, .tools, msgs => runFrom reasoner fetch n .chatbot (runToolTurn fetch msgs)

/-- The seed prompt of `FinancialAnalysisAgent.run` (an f-string over the anomaly
data and the invoice type). -/
def initialMessage (anomaly_data invoices_type : String) : String :=
  "You are a financial analyst. You have access to tools to extract invoice data.\n\nYour task is to analyze the following anomaly:\n\n"
    ++ anomaly_data
    ++ "\n\n1. Use the extract_invoices with param type " ++ invoices_type
    ++ " to get the invoice data for the anomaly date\n2. Analyze the data to understand why it's anomalous\n3. Provide insights and recommendations\n\nPlease start by extracting the invoice data for the anomaly date."

/-- `FinancialAnalysisAgent.run`: invoke the compiled graph, entry point `chatbot`,
on a transcript seeded with the single initiator message. -/
def runAgent (reasoner : List Message → Message) (fetch : Fetch) (limit : Nat)
    (anomaly_data invoices_type : String) : Except RunError (List Message) :=
  runFrom reasoner fetch limit .chatbot
    [⟨Role.human, initialMessage anomaly_data invoices_type, []⟩]

/-! ### Auth token (`src/services/belvo_service.py`) -/

/-- The base64 alphabet (RFC 4648), index `n` ↦ character. -/
def b64chars : List Char :=
  ['A', 'B', 'C', 'D', 'E', 'F', 'G', 'H', 'I', 'J', 'K', 'L', 'M',
   'N', 'O', 'P', 'Q', 'R', 'S', 'T', 'U', 'V', 'W', 'X', 'Y', 'Z',
   'a', 'b', 'c', 'd', 'e', 'f', 'g', 'h', 'i', 'j', 'k', 'l', 'm',
   'n', 'o', 'p', 'q', 'r', 's', 't', 'u', 'v', 'w', 'x', 'y', 'z',
   '0', '1', '2', '3', '4', '5', '6', '7', '8', '9', '+', '/']

/-- Character of one 6-bit group. -/
def sextetToChar (n : Nat) : Char := b64chars.getD n 'A'

/-- Index of a base64 character in the alphabet. -/
def charToSextet (c : Char) : Nat := b64chars.indexOf c

/-- `base64.b64encode` over a byte sequence (bytes as `ℕ < 256`), producing the
padded base64 character sequence. -/
def b64encode : List Nat → List Char
  | [] => []
  | [b1] =>
    [sextetToChar (b1 / 4), sextetToChar (b1 % 4 * 16), '=', '=']
  | [b1, b2] =>
    [sextetToChar (b1 / 4), sextetToChar (b1 % 4 * 16 + b2 / 16),
     sextetToChar (b2 % 16 * 4), '=']
  | b1 :: b2 :: b3 :: rest =>
    sextetToChar (b1 / 4) :: sextetToChar (b1 % 4 * 16 + b2 / 16)
      :: sextetToChar (b2 % 16 * 4 + b3 / 64) :: sextetToChar (b3 % 64)
      :: b64encode rest

/-- `base64.b64decode` on well-formed base64 input (padding only at the end). -/
def b64decode : List Char → List Nat
  | c1 :: c2 :: c3 :: c4 :: rest =>
    if c3 = '=' then
      [charToSextet c1 * 4 + charToSextet c2 / 16]
    else if c4 = '=' then
      [charToSextet c1 * 4 + charToSextet c2 / 16,
       charToSextet c2 % 16 * 16 + charToSextet c3 / 4]
    else
      (charToSextet c1 * 4 + charToSextet c2 / 16)
        :: (charToSextet c2 % 16 * 16 + charToSextet c3 / 4)
        :: (charToSextet c3 % 4 * 64 + charToSextet c4)
        :: b64decode rest
  | _ => []

/-- The configuration consumed by `BelvoService.__init__`; `client_id` and
`client_secret` are strings, modelled as their UTF-8 byte sequences. -/
structure BelvoConfig where
  client_id : List Nat
  client_secret : List Nat

/-- The byte of the `':'` separator in `f"{client_id}:{client_secret}"`. -/
def colonByte : Nat := 58

/-- `BelvoService.generate_auth_token`: base64 of the UTF-8 encoding of
`f"{client_id}:{client_secret}"`. -/
def generate_auth_token (cfg : BelvoConfig) : List Char :=
  b64encode (cfg.client_id ++ colonByte :: cfg.client_secret)

/-- The value of the `Authorization` header built by `BelvoService.get_auth_header`:
`f"Basic {token}"`. -/
def get_auth_header (cfg : BelvoConfig) : List Char :=
  "Basic ".data ++ generate_auth_token cfg

/-! ### Concrete fixtures used by counterexamples and witnesses -/

/-- A reasoner that requests a tool call on every turn (adversarial for the loop cap). -/
def advReasoner : List Message → Message :=
  fun _ => ⟨Role.ai, "calling tools again", [⟨"2024-01-16", InvoiceType.OUTFLOW⟩]⟩

/-- A reasoner that immediately answers with a final narrative and no tool calls. -/
def doneReasoner : List Message → Message :=
  fun _ => ⟨Role.ai, "final narrative", []⟩

/-- A fetch that always succeeds with an empty record set. -/
def okFetch : Fetch := fun _ _ => .ok []

/-- A fetch that always raises (e.g. `FileNotFoundError` from the CSV read). -/
def failFetch : Fetch := fun _ _ => .error "boom"

/-- A reasoner turn carrying exactly one tool-call request. -/
def toolCallMsg : Message := ⟨Role.ai, "", [⟨"2024-01-16", InvoiceType.OUTFLOW⟩]⟩

/-- One-row aggregate series fed to the classifier. -/
def series1 : List DailyAggregate := [⟨20240105, "Pago", 100⟩]

/-- A hallucinated anomaly whose `(date, category)` is absent from `series1`. -/
def hallucinatedAnomaly : Anomaly := ⟨20240199, 999, "Egreso", "made up"⟩

/-- A capability response containing only the hallucinated anomaly. -/
def badInvoke : String → DetectionOutput := fun _ => ⟨[hallucinatedAnomaly]⟩

/-- A capability response with no anomalies. -/
def emptyInvoke : String → DetectionOutput := fun _ => ⟨[]⟩

/-- One record lying strictly between the inverted bounds of the `InvalidRange` scenario. -/
def rowsRange : List InvoiceRecord := [⟨"INFLOW", 20240115, "Pago", 100⟩]

/-- Two same-day INFLOW records with distinct `invoice_type` labels. -/
def rowsTwoTypes : List InvoiceRecord :=
  [⟨"INFLOW", 20240110, "Pago", 100⟩, ⟨"INFLOW", 20240110, "Traslado", 50⟩]

/-- Two records sharing the full `(invoice_date, invoice_type)` group key. -/
def rowsDupKey : List InvoiceRecord :=
  [⟨"INFLOW", 20240110, "Pago", 1⟩, ⟨"INFLOW", 20240110, "Pago", 2⟩]

/-- Records of one category spanning two dates (for the date-range seed query). -/
def rowsRange9 : List InvoiceRecord :=
  [⟨"INFLOW", 20240127, "Traslado", 70721⟩, ⟨"INFLOW", 20240106, "Pago", 1000⟩]

/-- A concrete configuration: `client_id = "id"`, `client_secret = "sec"` as UTF-8 bytes. -/
def demoConfig : BelvoConfig := ⟨[105, 100], [115, 101, 99]⟩

/-! ### Helper lemmas: the group-key order is total and transitive -/

theorem charListLE_total : ∀ as bs : List Char,
    charListLE as bs = true ∨ charListLE bs as = true
  | [], _ => Or.inl rfl
  | _ :: _, [] => Or.inr rfl
  | a :: as, b :: bs => by
    rcases Nat.lt_trichotomy a.toNat b.toNat with h | h | h
    · left; simp [charListLE, h]
    · rcases charListLE_total as bs with ih | ih
      · left; simp [charListLE, h, ih]
      · right; simp [charListLE, h.symm, ih]
    · right; simp [charListLE, h]

theorem charListLE_trans : ∀ as bs cs : List Char,
    charListLE as bs = true → charListLE bs cs = true → charListLE as cs = true
  | [], _, _, _, _ => rfl
  | _ :: _, [], _, h, _ => by simp [charListLE] at h
  | _ :: _, _ :: _, [], _, h => by simp [charListLE] at h
  | a :: as, b :: bs, c :: cs, h1, h2 => by
    simp only [charListLE] at h1 h2 ⊢
    split_ifs at h1 h2 ⊢ with hab hba hbc hcb hac hca
    all_goals first
      | rfl
      | omega
      | (exact charListLE_trans as bs cs h1 h2)

instance : IsTotal (Date × String) keyLE := by
  constructor
  intro a b
  rcases Nat.lt_trichotomy a.1 b.1 with h | h | h
  · exact Or.inl (Or.inl h)
  · rcases charListLE_total a.2.data b.2.data with hc | hc
    · exact Or.inl (Or.inr ⟨h, hc⟩)
    · exact Or.inr (Or.inr ⟨h.symm, hc⟩)
  · exact Or.inr (Or.inl h)

instance : IsTrans (Date × String) keyLE := by
  constructor
  intro a b c hab hbc
  rcases hab with h1 | ⟨h1, hs1⟩ <;> rcases hbc with h2 | ⟨h2, hs2⟩
  · exact Or.inl (Nat.lt_trans h1 h2)
  · exact Or.inl (h2 ▸ h1)
  · exact Or.inl (h1 ▸ h2)
  · exact Or.inr ⟨h1.trans h2, charListLE_trans _ _ _ hs1 hs2⟩

/-! ### Helper lemmas: folded `min`/`max` over a date list -/

theorem natMin_ite (a b : Nat) : Nat.min a b = if a ≤ b then a else b := rfl

theorem natMax_ite (a b : Nat) : Nat.max a b = if a ≤ b then b else a := rfl

theorem foldl_min_le_init : ∀ (l : List Nat) (a : Nat), l.foldl Nat.min a ≤ a
  | [], a => Nat.le_refl a
  | x :: l, a =>
    Nat.le_trans (foldl_min_le_init l (Nat.min a x)) (Nat.min_le_left a x)

theorem init_le_foldl_max : ∀ (l : List Nat) (a : Nat), a ≤ l.foldl Nat.max a
  | [], a => Nat.le_refl a
  | x :: l, a =>
    Nat.le_trans (Nat.le_max_left a x) (init_le_foldl_max l (Nat.max a x))

theorem foldl_min_mem_cons : ∀ (l : List Nat) (a : Nat), l.foldl Nat.min a ∈ a :: l
  | [], a => List.mem_singleton.mpr rfl
  | x :: l, a => by
    simp only [List.foldl_cons]
    rcases List.mem_cons.mp (foldl_min_mem_cons l (Nat.min a x)) with h | h
    · rw [h]
      rcases Nat.le_total a x with hax | hxa
      · rw [natMin_ite, if_pos hax]; exact List.mem_cons_self a (x :: l)
      · have hm : Nat.min a x = x := by rw [natMin_ite]; split <;> omega
        rw [hm]
        exact List.mem_cons_of_mem a (List.mem_cons_self x l)
    · exact List.mem_cons_of_mem a (List.mem_cons_of_mem x h)

theorem foldl_max_mem_cons : ∀ (l : List Nat) (a : Nat), l.foldl Nat.max a ∈ a :: l
  | [], a => List.mem_singleton.mpr rfl
  | x :: l, a => by
    simp only [List.foldl_cons]
    rcases List.mem_cons.mp (foldl_max_mem_cons l (Nat.max a x)) with h | h
    · rw [h]
      rcases Nat.le_total a x with hax | hxa
      · rw [natMax_ite, if_pos hax]
        exact List.mem_cons_of_mem a (List.mem_cons_self x l)
      · have hm : Nat.max a x = a := by rw [natMax_ite]; split <;> omega
        rw [hm]; exact List.mem_cons_self a (x :: l)
    · exact List.mem_cons_of_mem a (List.mem_cons_of_mem x h)

theorem foldl_min_le_mem : ∀ (l : List Nat) (a x : Nat), x ∈ a :: l → l.foldl Nat.min a ≤ x
  | [], a, x, h => by
    rw [List.mem_singleton.mp h]; exact Nat.le_refl a
  | y :: l, a, x, h => by
    simp only [List.foldl_cons]
    rcases List.mem_cons.mp h with rfl | h1
    · exact Nat.le_trans (foldl_min_le_init l (Nat.min x y)) (Nat.min_le_left x y)
    · rcases List.mem_cons.mp h1 with rfl | h2
      · exact Nat.le_trans (foldl_min_le_init l (Nat.min a x)) (Nat.min_le_right a x)
      · exact foldl_min_le_mem l (Nat.min a y) x
          (List.mem_cons_of_mem _ h2)

theorem mem_le_foldl_max : ∀ (l : List Nat) (a x : Nat), x ∈ a :: l → x ≤ l.foldl Nat.max a
  | [], a, x, h => by
    rw [List.mem_singleton.mp h]; exact Nat.le_refl a
  | y :: l, a, x, h => by
    simp only [List.foldl_cons]
    rcases List.mem_cons.mp h with rfl | h1
    · exact Nat.le_trans (Nat.le_max_left x y) (init_le_foldl_max l (Nat.max x y))
    · rcases List.mem_cons.mp h1 with rfl | h2
      · exact Nat.le_trans (Nat.le_max_right a x) (init_le_foldl_max l (Nat.max a x))
      · exact mem_le_foldl_max l (Nat.max a y) x (List.mem_cons_of_mem _ h2)

/-! ### Helper lemmas: base64 -/

theorem charToSextet_sextetToChar : ∀ n, n < 64 → charToSextet (sextetToChar n) = n := by
  decide

theorem sextetToChar_ne_pad : ∀ n, n < 64 → sextetToChar n ≠ '=' := by
  decide

theorem b64decode_encode :
    ∀ bs : List Nat, (∀ b ∈ bs, b < 256) → b64decode (b64encode bs) = bs := by
  intro bs
  induction bs using b64encode.induct with
  | case1 => intro _; rfl
  | case2 b1 =>
    intro h
    have hb1 : b1 < 256 := h b1 (List.mem_singleton.mpr rfl)
    have e1 := charToSextet_sextetToChar (b1 / 4) (by omega)
    have e2 := charToSextet_sextetToChar (b1 % 4 * 16) (by omega)
    simp only [b64encode, b64decode, if_pos, e1, e2]
    congr 1
    omega
  | case3 b1 b2 =>
    intro h
    have hb1 : b1 < 256 := h b1 (by simp)
    have hb2 : b2 < 256 := h b2 (by simp)
    have e1 := charToSextet_sextetToChar (b1 / 4) (by omega)
    have e2 := charToSextet_sextetToChar (b1 % 4 * 16 + b2 / 16) (by omega)
    have e3 := charToSextet_sextetToChar (b2 % 16 * 4) (by omega)
    have hne := sextetToChar_ne_pad (b2 % 16 * 4) (by omega)
    simp only [b64encode, b64decode, if_neg hne, if_pos, e1, e2, e3]
    congr 1
    · omega
    · congr 1
      omega
  | case4 b1 b2 b3 rest ih =>
    intro h
    have hb1 : b1 < 256 := h b1 (by simp)
    have hb2 : b2 < 256 := h b2 (by simp)
    have hb3 : b3 < 256 := h b3 (by simp)
    have e1 := charToSextet_sextetToChar (b1 / 4) (by omega)
    have e2 := charToSextet_sextetToChar (b1 % 4 * 16 + b2 / 16) (by omega)
    have e3 := charToSextet_sextetToChar (b2 % 16 * 4 + b3 / 64) (by omega)
    have e4 := charToSextet_sextetToChar (b3 % 64) (by omega)
    have hne3 := sextetToChar_ne_pad (b2 % 16 * 4 + b3 / 64) (by omega)
    have hne4 := sextetToChar_ne_pad (b3 % 64) (by omega)
    have hrest : ∀ b ∈ rest, b < 256 := fun b hb => h b (by simp [hb])
    simp only [b64encode, b64decode, if_neg hne3, if_neg hne4, e1, e2, e3, e4, ih hrest]
    congr 1
    · omega
    · congr 1
      · omega
      · congr 1
        omega

/-! ### Claim C1 — termination of the Analysis Loop -/

/-- C1 counterexample: with a reasoner that requests a tool call on every turn, a run
of the compiled graph under the runtime's default recursion limit (25) ends in
`GraphRecursionError` — it never transitions to `DONE`, and no best-effort narrative
flagged as truncated is produced. -/
theorem analysisLoop_cap_counterexample :
    runAgent advReasoner okFetch 25 "anomaly row" "OUTFLOW" = .error .recursionLimit := by
  rfl

/-- C1 (amended): `FinancialAnalysisAgent` configures no cap on `REASONING` turns;
for every reasoner whose every turn requests tool calls, the graph never takes the
transition to `DONE` — for every recursion limit, from either node and any
transcript, the run aborts with the runtime's recursion-limit error instead of
producing a truncated narrative. -/
theorem analysisLoop_no_cap (reasoner : List Message → Message) (fetch : Fetch)
    (hadv : ∀ msgs, (reasoner msgs).tool_calls ≠ []) :
    ∀ (n : Nat) (node : Node) (msgs : List Message),
      runFrom reasoner fetch n node msgs = .error .recursionLimit := by
  intro n
  induction n with
  | zero => intro node msgs; cases node <;> rfl
  | succ k ih =>
    intro node msgs
    cases node
    · simp only [runFrom, should_continue, List.getLast?_concat, hadv msgs,
        if_neg (hadv msgs)]
      exact ih .tools (msgs ++ [reasoner msgs])
    · exact ih .chatbot (runToolTurn fetch msgs)

/-- C1 witness: the amended theorem applied to the concrete adversarial reasoner. -/
theorem analysisLoop_no_cap_witness :
    runFrom advReasoner okFetch 7 .chatbot [] = .error .recursionLimit :=
  analysisLoop_no_cap advReasoner okFetch
    (fun _ => by simp [advReasoner]) 7 .chatbot []

/-! ### Claim C2 — classifier output consistency -/

/-- C2 counterexample: a capability response whose anomaly's `(date, category)` pair
appears nowhere in the input series is returned by `detect` as-is — no
`InconsistentAnomaly` failure exists in the code. -/
theorem detect_no_validation_counterexample :
    (detect badInvoke series1).1.anomalies = [hallucinatedAnomaly]
      ∧ ∀ a ∈ series1,
          ¬(a.date = hallucinatedAnomaly.date
            ∧ a.invoice_type = hallucinatedAnomaly.invoice_type) := by
  exact ⟨rfl, by decide⟩

/-- C2 (amended): `detect` forwards the capability's structured response unchanged
(and sends exactly one prompt); it performs no consistency check of emitted anomalies
against the input series. -/
theorem detect_passthrough (invoke : String → DetectionOutput)
    (series : List DailyAggregate) :
    (detect invoke series).1 = invoke (promptFor series)
      ∧ (detect invoke series).2 = [promptFor series] :=
  ⟨rfl, rfl⟩

/-! ### Claim C3 — classifier on the empty series -/

/-- C3 counterexample: on the empty input series `detect` still sends one prompt to
the reasoning capability — the number of external calls is 1, not 0. -/
theorem detect_empty_counterexample :
    (detect emptyInvoke []).2.length = 1 ∧ ¬(detect emptyInvoke []).2.length = 0 :=
  ⟨rfl, by simp [detect]⟩

/-- C3 (amended): on the empty series `detect` makes exactly one capability call
(there is no short-circuit), and returns an empty anomaly list exactly when the
capability answers with one. -/
theorem detect_empty_one_call (invoke : String → DetectionOutput) :
    (detect invoke []).2.length = 1
      ∧ ((invoke (promptFor [])).anomalies = [] →
          (detect invoke []).1.anomalies = []) :=
  ⟨rfl, fun h => h⟩

/-- C3 witness: the amended theorem at the concrete empty-answer capability. -/
theorem detect_empty_one_call_witness :
    (detect emptyInvoke []).2.length = 1
      ∧ (detect emptyInvoke []).1.anomalies = [] :=
  ⟨(detect_empty_one_call emptyInvoke).1, (detect_empty_one_call emptyInvoke).2 rfl⟩

/-! ### Claim C4 — inverted date range -/

/-- C4 counterexample: the spec's scenario `fromDate=2024-02-01, toDate=2024-01-01`
(with a record strictly between the bounds in the store) returns a normal empty
result — `extract` raises no `InvalidRange` (no such error exists in the code). -/
theorem invalid_range_counterexample :
    extract rowsRange 20240201 20240101 InvoiceType.INFLOW = [] := by
  rfl

/-- C4 (amended): for every record set and every inverted range `toDate < fromDate`,
`extract` returns the normal empty aggregate list rather than failing; the only
range validation lives in the dashboard layer, which refuses to call `extract`. -/
theorem extract_inverted_range_empty (rows : List InvoiceRecord) (f t : Date)
    (it : InvoiceType) (h : t < f) : extract rows f t it = [] := by
  have hf : filterData rows f t it = [] := by
    apply List.filter_eq_nil_iff.mpr
    intro r _
    intro hcontra
    simp only [Bool.and_eq_true, decide_eq_true_eq] at hcontra
    obtain ⟨⟨h1, h2⟩, -⟩ := hcontra
    exact Nat.lt_irrefl t (Nat.lt_of_lt_of_le h (Nat.le_trans h1 h2))
  unfold extract
  rw [hf]
  rfl

/-- C4 witness: the amended theorem at the spec's scenario dates. -/
theorem extract_inverted_range_empty_witness :
    extract rowsRange 20240201 20240101 InvoiceType.OUTFLOW = [] :=
  extract_inverted_range_empty rowsRange 20240201 20240101 InvoiceType.OUTFLOW
    (by norm_num)

/-! ### Claim C5 — aggregator output order and key uniqueness -/

/-- C5 counterexample: two same-day INFLOW records with different `invoice_type`
labels produce two output rows for the same date — the output has at most one row
per `(date, invoice_type)` key, not per date. -/
theorem extract_one_row_per_date_counterexample :
    ((extract rowsTwoTypes 20240101 20240131 InvoiceType.INFLOW).map
        fun a => a.date) = [20240110, 20240110] := by
  rfl

/-- C5 (amended): for every record set and valid inputs, `extract`'s output is
sorted ascending by date, and contains at most one row per `(date, invoice_type)`
group key (dates alone may repeat across distinct `invoice_type` labels). -/
theorem extract_sorted_nodup_keys (rows : List InvoiceRecord) (f t : Date)
    (it : InvoiceType) :
    List.Sorted (fun a b : DailyAggregate => a.date ≤ b.date) (extract rows f t it)
      ∧ ((extract rows f t it).map fun a => (a.date, a.invoice_type)).Nodup := by
  constructor
  · refine List.Pairwise.map _ ?_ (List.sorted_insertionSort keyLE _)
    intro a b hab
    rcases hab with h | ⟨h, -⟩
    · exact Nat.le_of_lt h
    · exact Nat.le_of_eq h
  · unfold extract aggregateRows
    rw [List.map_map]
    have hid : ((fun a : DailyAggregate => (a.date, a.invoice_type))
        ∘ fun k : Date × String =>
          (⟨k.1, k.2, keySum (filterData rows f t it) k⟩ : DailyAggregate))
        = id := by
      funext k
      cases k
      rfl
    rw [hid, List.map_id]
    exact (List.perm_insertionSort keyLE _).nodup_iff.mpr (List.nodup_dedup _)

/-! ### Claim C6 — DONE transition of the Analysis Loop -/

/-- C6: from the `chatbot` node, the run ends (the `END` edge is taken) exactly when
the reasoner's turn carries no tool-call requests, and then the returned transcript's
final message is that turn (its content is the final narrative); when the turn does
carry tool-call requests, control passes to the `tools` node instead. -/
theorem chatbot_done_iff_no_tool_calls (reasoner : List Message → Message)
    (fetch : Fetch) (n : Nat) (msgs : List Message) :
    ((reasoner msgs).tool_calls = [] →
        runFrom reasoner fetch (n + 1) .chatbot msgs = .ok (msgs ++ [reasoner msgs])
          ∧ (msgs ++ [reasoner msgs]).getLast? = some (reasoner msgs))
      ∧ ((reasoner msgs).tool_calls ≠ [] →
          runFrom reasoner fetch (n + 1) .chatbot msgs
            = runFrom reasoner fetch n .tools (msgs ++ [reasoner msgs])) := by
  constructor
  · intro h
    refine ⟨?_, List.getLast?_concat msgs⟩
    simp only [runFrom, should_continue, List.getLast?_concat, if_pos h]
  · intro h
    simp only [runFrom, should_continue, List.getLast?_concat, if_neg h]

/-- C6 witness: a reasoner that answers immediately without tool calls ends the run
with its message as the final narrative. -/
theorem chatbot_done_iff_no_tool_calls_witness :
    (runFrom doneReasoner okFetch (1 + 1) .chatbot [] = .ok ([] ++ [doneReasoner []])
        ∧ ([] ++ [doneReasoner []]).getLast? = some (doneReasoner []))
      ∧ runFrom advReasoner okFetch (1 + 1) .chatbot []
          = runFrom advReasoner okFetch 1 .tools ([] ++ [advReasoner []]) :=
  ⟨(chatbot_done_iff_no_tool_calls doneReasoner okFetch 1 []).1 rfl,
   (chatbot_done_iff_no_tool_calls advReasoner okFetch 1 []).2 (by simp [advReasoner])⟩

/-! ### Claim C7 — tool failures are recovered into the transcript -/

/-- C7: when the underlying data fetch of a tool call fails, `extract_invoices`
returns the error description string instead of raising, and the `tools` node
appends each tool result to the transcript as a tool turn and hands control back to
the reasoner — the run is never aborted by a failing tool call. -/
theorem tool_error_recovered (fetch : Fetch) (d : String) (it : InvoiceType)
    (e : String) (h : fetch d it = .error e) :
    extract_invoices fetch d it = "Error extracting invoices: " ++ e
      ∧ ∀ (reasoner : List Message → Message) (n : Nat) (msgs : List Message)
          (m : Message), msgs.getLast? = some m →
          runFrom reasoner fetch (n + 1) .tools msgs
            = runFrom reasoner fetch n .chatbot
                (msgs ++ m.tool_calls.map fun tc =>
                  ⟨Role.tool, extract_invoices fetch tc.date tc.invoice_type, []⟩) := by
  constructor
  · simp [extract_invoices, h]
  · intro reasoner n msgs m hm
    simp only [runFrom, runToolTurn, hm]

/-- C7 witness: a fetch that always raises, a transcript whose last message requests
one tool call. -/
theorem tool_error_recovered_witness :
    extract_invoices failFetch "2024-01-16" InvoiceType.OUTFLOW
        = "Error extracting invoices: " ++ "boom"
      ∧ runFrom doneReasoner failFetch (0 + 1) .tools [toolCallMsg]
          = runFrom doneReasoner failFetch 0 .chatbot
              ([toolCallMsg] ++ toolCallMsg.tool_calls.map fun tc =>
                ⟨Role.tool, extract_invoices failFetch tc.date tc.invoice_type, []⟩) :=
  ⟨(tool_error_recovered failFetch "2024-01-16" InvoiceType.OUTFLOW "boom" rfl).1,
   (tool_error_recovered failFetch "2024-01-16" InvoiceType.OUTFLOW "boom" rfl).2
     doneReasoner 0 [toolCallMsg] toolCallMsg rfl⟩

/-! ### Claim C8 — the single-day query -/

/-- C8 counterexample: two records sharing the `(date, invoice_type)` key make
`get_invoices` return two raw rows with the individual amounts, while the range
query restricted to `[day, day]` returns one aggregated row with their sum — the
single-day query is not the aggregated `DailyAggregate` shape. -/
theorem get_invoices_not_aggregated_counterexample :
    ((get_invoices rowsDupKey 20240110 InvoiceType.INFLOW).map fun r =>
        (r.invoice_date, r.invoice_type, r.total_amount))
      = [(20240110, "Pago", (1 : ℚ)), (20240110, "Pago", (2 : ℚ))]
      ∧ ((extract rowsDupKey 20240110 20240110 InvoiceType.INFLOW).map fun a =>
          (a.date, a.invoice_type, a.total_amount))
        = [(20240110, "Pago", (3 : ℚ))] := by
  constructor
  · rfl
  · rw [show (3 : ℚ) = 1 + (2 + 0) by norm_num]
    rfl

/-- C8 (amended): `get_invoices(day, type)` returns the raw filtered invoice records
of that day and type, without grouping or summation; the aggregated single-day view
is exactly what grouping its output yields, i.e. `extract(day, day, type)`. -/
theorem get_invoices_raw_rows (rows : List InvoiceRecord) (d : Date)
    (it : InvoiceType) :
    extract rows d d it = aggregateRows (get_invoices rows d it)
      ∧ ∀ r ∈ get_invoices rows d it, r.invoice_date = d ∧ r.ty = it.value := by
  refine ⟨rfl, ?_⟩
  intro r hr
  unfold get_invoices filterData at hr
  have hm := (List.mem_filter.mp hr).2
  simp only [Bool.and_eq_true, decide_eq_true_eq, beq_iff_eq] at hm
  obtain ⟨⟨h1, h2⟩, h3⟩ := hm
  exact ⟨Nat.le_antisymm h2 h1, h3⟩

/-- C8 witness: the amended theorem at the concrete duplicate-key record set. -/
theorem get_invoices_raw_rows_witness :
    extract rowsDupKey 20240110 20240110 InvoiceType.INFLOW
        = aggregateRows (get_invoices rowsDupKey 20240110 InvoiceType.INFLOW)
      ∧ (⟨"INFLOW", 20240110, "Pago", 1⟩ : InvoiceRecord).invoice_date = 20240110
      ∧ (⟨"INFLOW", 20240110, "Pago", 1⟩ : InvoiceRecord).ty
          = InvoiceType.INFLOW.value :=
  ⟨(get_invoices_raw_rows rowsDupKey 20240110 InvoiceType.INFLOW).1,
   ((get_invoices_raw_rows rowsDupKey 20240110 InvoiceType.INFLOW).2
     ⟨"INFLOW", 20240110, "Pago", 1⟩ (by decide)).1,
   ((get_invoices_raw_rows rowsDupKey 20240110 InvoiceType.INFLOW).2
     ⟨"INFLOW", 20240110, "Pago", 1⟩ (by decide)).2⟩

/-! ### Claim C9 — the date-range seed query -/

/-- C9: `get_date_range` fails with `NoData` exactly on a category with zero
records, and on a category with at least one record returns `(minDate, maxDate)`:
both bounds are dates of records of that category, and every such date lies between
them. -/
theorem get_date_range_minmax (rows : List InvoiceRecord) (it : InvoiceType) :
    (datesOf rows it = [] → get_date_range rows it = .error .NoData)
      ∧ ∀ d ds, datesOf rows it = d :: ds →
          get_date_range rows it = .ok (ds.foldl Nat.min d, ds.foldl Nat.max d)
            ∧ ds.foldl Nat.min d ∈ datesOf rows it
            ∧ ds.foldl Nat.max d ∈ datesOf rows it
            ∧ ∀ x ∈ datesOf rows it,
                ds.foldl Nat.min d ≤ x ∧ x ≤ ds.foldl Nat.max d := by
  constructor
  · intro h
    unfold get_date_range
    rw [h]
  · intro d ds h
    refine ⟨?_, ?_, ?_, ?_⟩
    · unfold get_date_range
      rw [h]
    · rw [h]; exact foldl_min_mem_cons ds d
    · rw [h]; exact foldl_max_mem_cons ds d
    · intro x hx
      rw [h] at hx
      exact ⟨foldl_min_le_mem ds d x hx, mem_le_foldl_max ds d x hx⟩

/-- C9 witness: a category with two records yields its min/max dates; a category
with zero records fails with `NoData`. -/
theorem get_date_range_minmax_witness :
    get_date_range rowsRange9 InvoiceType.INFLOW
        = .ok ([20240106].foldl Nat.min 20240127, [20240106].foldl Nat.max 20240127)
      ∧ get_date_range rowsRange9 InvoiceType.OUTFLOW = .error .NoData :=
  ⟨((get_date_range_minmax rowsRange9 InvoiceType.INFLOW).2
      20240127 [20240106] rfl).1,
   (get_date_range_minmax rowsRange9 InvoiceType.OUTFLOW).1 rfl⟩

/-! ### Claim C10 — auth-token round-trip -/

/-- C10: for every configuration whose `client_id` and `client_secret` are byte
strings, base64-decoding the token produced by `generate_auth_token` yields exactly
the bytes of `client_id`, the `':'` separator, and `client_secret`; and the
`Authorization` header value is the string `"Basic "` followed by that token. -/
theorem auth_token_roundtrip (cfg : BelvoConfig)
    (hid : ∀ b ∈ cfg.client_id, b < 256)
    (hsec : ∀ b ∈ cfg.client_secret, b < 256) :
    b64decode (generate_auth_token cfg)
        = cfg.client_id ++ colonByte :: cfg.client_secret
      ∧ get_auth_header cfg = "Basic ".data ++ generate_auth_token cfg := by
  refine ⟨?_, rfl⟩
  apply b64decode_encode
  intro b hb
  rcases List.mem_append.mp hb with h | h
  · exact hid b h
  · rcases List.mem_cons.mp h with rfl | h
    · unfold colonByte
      omega
    · exact hsec b h

/-- C10 witness: the round-trip at `client_id = "id"`, `client_secret = "sec"`. -/
theorem auth_token_roundtrip_witness :
    b64decode (generate_auth_token demoConfig)
        = demoConfig.client_id ++ colonByte :: demoConfig.client_secret
      ∧ get_auth_header demoConfig = "Basic ".data ++ generate_auth_token demoConfig :=
  auth_token_roundtrip demoConfig (by decide) (by decide)

end Belvo
